import Mathlib

/-!
# Verification of the SC-Binding-Utility input-capture engine

Shallow embedding of `src/src-tauri/src/directinput.rs`: the axis debounce
state machines, the input classifier and its debug-string parsing, the
device-identity resolver, the XInput (legacy backend) button diffing, and the
skeletons of the three capture protocols (`wait_for_input`,
`wait_for_multiple_inputs`, `wait_for_inputs_with_events`).

Analog values are modelled as rationals: every operation the source performs
on `f32` axis values (subtraction, absolute value, threshold comparison
against 0.5 / 0.3) is exact on the inputs considered here.
-/

/-! ## Axis debounce state machine (directinput.rs lines 286-292, 536-576,
772-840, 1012-1048, 1361-1390, 1611-1688) -/

/-- Per-axis hysteresis state, mirroring `struct AxisState` (directinput.rs
lines 289-292): `last_value: f32`, `last_triggered_direction: Option<bool>`
with `true` = positive. -/
structure AxisState where
  last_value : ℚ
  last_triggered_direction : Option Bool
deriving Repr, DecidableEq

/-- Mirrors `AXIS_TRIGGER_THRESHOLD: f32 = 0.5` (directinput.rs line 386). -/
def AXIS_TRIGGER_THRESHOLD : ℚ := 1/2

/-- Mirrors `AXIS_RESET_THRESHOLD: f32 = 0.3` (directinput.rs line 387). -/
def AXIS_RESET_THRESHOLD : ℚ := 3/10

/-- Mirrors `MOVEMENT_THRESHOLD: f32 = 0.3` (directinput.rs line 541). -/
def MOVEMENT_THRESHOLD : ℚ := 3/10

/-- One observation of the delta-gated debounce used by the generic-backend
axis path of `wait_for_input` (lines 536-576), of `wait_for_multiple_inputs`
(lines 1012-1048) and by the legacy-backend axis path of all protocols
(lines 772-840, 1611-1688). This helper captures the centering reset (lines
549-553): inside the reset band the triggered direction clears and
`last_value` updates; otherwise the state is untouched. -/
def debounceReset (state : AxisState) (value : ℚ) : AxisState :=
  if |value| < AXIS_RESET_THRESHOLD then
    { last_value := value, last_triggered_direction := none }
  else state

/-- Delta-gated debounce, one observation (see the doc comment above
`debounceReset` for the source lines). The reset of
`last_triggered_direction` on centering happens before the trigger test
(lines 549-553), while the movement delta is computed against the pre-reset
`last_value` (line 538). -/
def debounceStep (state : AxisState) (value : ℚ) : AxisState × Option Bool :=
  if AXIS_TRIGGER_THRESHOLD < value ∧ MOVEMENT_THRESHOLD < |value - state.last_value| ∧
      (debounceReset state value).last_triggered_direction ≠ some true then
    ({ last_value := value, last_triggered_direction := some true }, some true)
  else if value < -AXIS_TRIGGER_THRESHOLD ∧ MOVEMENT_THRESHOLD < |value - state.last_value| ∧
      (debounceReset state value).last_triggered_direction ≠ some false then
    ({ last_value := value, last_triggered_direction := some false }, some false)
  else (debounceReset state value, none)

/-- One observation of the threshold-crossing debounce used by the
generic-backend axis path of `wait_for_inputs_with_events` (directinput.rs
lines 1361-1390): `should_trigger` is computed from the old
`last_triggered_direction` (lines 1370-1380), then the direction clears when
inside the reset band (lines 1382-1384), `last_value` always updates (line
1386), and on a trigger the direction is recorded (line 1389). No movement
delta is consulted. -/
def debounceStepEvents (state : AxisState) (value : ℚ) : AxisState × Option Bool :=
  let is_positive : Bool := decide (0 < value)
  let should_trigger : Bool :=
    match state.last_triggered_direction with
    | none => decide (AXIS_TRIGGER_THRESHOLD ≤ |value|)
    | some last_positive =>
      if last_positive == is_positive then false
      else decide (AXIS_TRIGGER_THRESHOLD ≤ |value|)
  let ltd1 : Option Bool :=
    if |value| < AXIS_RESET_THRESHOLD then none else state.last_triggered_direction
  if should_trigger then
    ({ last_value := value, last_triggered_direction := some is_positive }, some is_positive)
  else ({ last_value := value, last_triggered_direction := ltd1 }, none)

/-- Folds the delta-gated debounce over a sequence of observations of one
axis key, collecting the fired directions in order. -/
def debounceRun : AxisState → List ℚ → AxisState × List Bool
  | s, [] => (s, [])
  | s, v :: vs =>
    ((debounceRun (debounceStep s v).1 vs).1,
      match (debounceStep s v).2 with
      | some d => d :: (debounceRun (debounceStep s v).1 vs).2
      | none => (debounceRun (debounceStep s v).1 vs).2)

/-- Folds the threshold-crossing debounce of `wait_for_inputs_with_events`
over a sequence of observations, collecting the fired directions. -/
def debounceRunEvents : AxisState → List ℚ → AxisState × List Bool
  | s, [] => (s, [])
  | s, v :: vs =>
    ((debounceRunEvents (debounceStepEvents s v).1 vs).1,
      match (debounceStepEvents s v).2 with
      | some d => d :: (debounceRunEvents (debounceStepEvents s v).1 vs).2
      | none => (debounceRunEvents (debounceStepEvents s v).1 vs).2)

/-- Trigger sequence of a freshly observed axis under the delta-gated
debounce: the state is created by `or_insert(AxisState { last_value: value,
last_triggered_direction: None })` seeded with the first observed value
(directinput.rs lines 532-535) and that same observation is then processed. -/
def debounceTriggers (vals : List ℚ) : List Bool :=
  match vals with
  | [] => []
  | v :: _ => (debounceRun { last_value := v, last_triggered_direction := none } vals).2

/-- Trigger sequence of a freshly observed axis under the
`wait_for_inputs_with_events` debounce (seeding at lines 1363-1366). -/
def debounceTriggersEvents (vals : List ℚ) : List Bool :=
  match vals with
  | [] => []
  | v :: _ => (debounceRunEvents { last_value := v, last_triggered_direction := none } vals).2

/-! ### Evaluation lemmas for the delta-gated debounce -/

/-! ## String utilities shared by the classifier, the debug-string parser
and the identity resolver -/

/-- Mirrors Rust `str::to_lowercase` on the device names considered (ASCII
per-character lowering, as `char::to_lowercase` performs on ASCII). -/
def strToLower (s : String) : String := String.mk (s.data.map Char.toLower)

/-- Character-list version of Rust `str::starts_with`. -/
def listStartsWith : List Char → List Char → Bool
  | [], _ => true
  | _ :: _, [] => false
  | a :: as, b :: bs => a == b && listStartsWith as bs

/-- Character-list version of Rust `str::contains` (substring search). -/
def listContainsSub (needle : List Char) : List Char → Bool
  | [] => needle.isEmpty
  | c :: rest => listStartsWith needle (c :: rest) || listContainsSub needle rest

/-- Substring test on strings: `strContainsSub hay needle` mirrors Rust
`hay.contains(needle)`. -/
def strContainsSub (hay needle : String) : Bool := listContainsSub needle.data hay.data

/-! ## Device classification (directinput.rs lines 78-138, `is_gamepad`) -/

/-- Mirrors `joystick_indicators` (directinput.rs lines 84-98). -/
def joystick_indicators : List String :=
  ["joystick", "hotas", "throttle", "gladiator", "warthog", "t16000", "vkb",
   "vkbsim", "virpil", "thrustmaster", "saitek", "x52", "x56"]

/-- Mirrors `gamepad_indicators` (directinput.rs lines 110-121). -/
def gamepad_indicators : List String :=
  ["xbox", "playstation", "dualshock", "dualsense", "ps3", "ps4", "ps5",
   "controller for windows", "gamepad", "xinput"]

/-- Mirrors `is_gamepad` (directinput.rs lines 78-138): lowercase the name,
return false (joystick) when any joystick indicator occurs as a substring,
else true (gamepad) when any gamepad indicator occurs, else false
(generic devices default to joystick). The unused `&gilrs::Gamepad`
parameter is omitted. -/
def is_gamepad (name : String) : Bool :=
  let name_lower := strToLower name
  if joystick_indicators.any (fun ind => strContainsSub name_lower ind) then false
  else if gamepad_indicators.any (fun ind => strContainsSub name_lower ind) then true
  else false

/-- Concrete device name of spec section 8: a flight stick matched only by
brand keywords. -/
def vkbGladiatorName : String := "VKB Gladiator NXT"

/-- Concrete device name of spec section 8: an Xbox-style controller. -/
def xboxControllerName : String := "Xbox Wireless Controller"

/-- Concrete device name containing both a gamepad and a joystick keyword. -/
def hybridName : String := "Gamepad Joystick Hybrid"

/-- Concrete device name matching neither indicator list. -/
def mysteryName : String := "Mystery Device"

/-! ## Decimal formatting and the debug-string index parser
(directinput.rs lines 255-284, 406-417, 439-455) -/

/-- Decimal digit character for a value below 10. -/
def digitChar (n : Nat) : Char := Char.ofNat (48 + n)

/-- Fuel-driven decimal digit list (most significant first). -/
def decimalDigitsAux : Nat → Nat → List Char
  | 0, _ => []
  | fuel+1, n =>
    if n < 10 then [digitChar n]
    else decimalDigitsAux fuel (n / 10) ++ [digitChar (n % 10)]

/-- Decimal representation of a natural number, mirroring Rust
`format!("{}", n)` for the unsigned integers interpolated into input
strings. -/
def decimalRepr (n : Nat) : List Char := decimalDigitsAux (n+1) n

/-- Accumulating decimal value of a digit string, as Rust `str::parse`
computes it. -/
def digitsVal (cs : List Char) : Nat := cs.foldl (fun acc c => acc * 10 + (c.toNat - 48)) 0

/-- Mirrors Rust `str::parse::<u32>()`: an optional leading plus sign, then
a nonempty all-digit body whose value fits in 32 bits. -/
def parseU32 (cs : List Char) : Option Nat :=
  let body := match cs with
    | '+' :: rest => rest
    | _ => cs
  if body ≠ [] ∧ body.all (fun c => c.isDigit) then
    if digitsVal body < 4294967296 then some (digitsVal body) else none
  else none

/-- Mirrors `rest[..end]` where `end = rest.find(' ')` (directinput.rs lines
259, 277, 410, 448): the characters before the first space, or `none` when
no space occurs. -/
def untilSpace : List Char → Option (List Char)
  | [] => none
  | c :: cs => if c == ' ' then some [] else (untilSpace cs).map (fun r => c :: r)

/-- Mirrors `&s[start + tok.len()..]` where `start = s.find(tok)`
(directinput.rs lines 257-258, 275-276, 408-409, 446-447): everything after
the first occurrence of `tok`, or `none` when `tok` does not occur. -/
def afterToken (tok : List Char) : List Char → Option (List Char)
  | [] => if tok.isEmpty then some [] else none
  | c :: rest =>
    if listStartsWith tok (c :: rest) then some ((c :: rest).drop tok.length)
    else afterToken tok rest

/-- The token `"index: "` searched in the `Code` debug representation. -/
def indexToken : String := "index: "

/-- The token `"kind: Axis"` searched in the `Code` debug representation
(directinput.rs line 272). -/
def kindAxisToken : String := "kind: Axis"

/-- Button index extracted from the `Code` debug string in the
`ButtonPressed` arms of `wait_for_input` (directinput.rs lines 443-455),
`wait_for_multiple_inputs` (lines 923-933) and `wait_for_inputs_with_events`
(lines 1278-1288): find `"index: "`, cut at the following space, parse,
`unwrap_or(0)`, and add 1 for 1-based indexing; either find failing yields
0. -/
def button_index_from_code (code_str : String) : Nat :=
  match afterToken indexToken.data code_str.data with
  | none => 0
  | some rest =>
    match untilSpace rest with
    | none => 0
    | some ds => (parseU32 ds).getD 0 + 1

/-- Mirrors `extract_code_info` (directinput.rs lines 268-284): reports
whether the code is an axis (`"kind: Axis"` occurs) and the parsed index
plus 1; any failure of the find/parse pipeline yields `None`. -/
def extract_code_info (code_str : String) : Option (Bool × Nat) :=
  match afterToken indexToken.data code_str.data with
  | none => none
  | some rest =>
    match untilSpace rest with
    | none => none
    | some ds =>
      match parseU32 ds with
      | some index => some (listContainsSub kindAxisToken.data code_str.data, index + 1)
      | none => none

/-- Concrete debug representation of a parsable button code. -/
def exButtonCode : String := "Code(EvCode(EvCode kind: Button, index: 2 ))"

/-- Concrete debug representation with no parsable index. -/
def exBadCode : String := "Code(EvCode no index here)"

/-- Concrete debug representation of a parsable axis code. -/
def exAxisCode : String := "Code(EvCode(EvCode kind: Axis, index: 1 ))"

/-- Concrete debug representation of an axis code whose index text does not
parse. -/
def exBadAxisCode : String := "Code(EvCode(EvCode kind: Axis, index: what ))"

/-! ## Canonical input-string construction (directinput.rs lines 422-479,
593-597, 710, 815-818, 905-956, 1067-1070, 1260-1305, 1411-1414, 1537,
1653-1654) -/

/-- Device prefix for joysticks. -/
def jsPre : String := "js"

/-- Device prefix for gamepads. -/
def gpPre : String := "gp"

/-- Literal `"_button"` as interpolated by `format!("{}{}_button{}", ..)`. -/
def buttonTail : String := "_button"

/-- Literal `"_button_unknown"` from the parse-failure fallback
(directinput.rs lines 469-477, 946-954). -/
def buttonUnknownTail : String := "_button_unknown"

/-- Literal `"_hat1_"` prefix of the D-pad strings (e.g. line 424). -/
def hatTail : String := "_hat1_"

/-- Literal `"_axis"` of the axis strings (e.g. lines 593-597). -/
def axisTail : String := "_axis"

/-- Literal `"positive"`. -/
def positiveDir : String := "positive"

/-- Literal `"negative"`. -/
def negativeDir : String := "negative"

/-- The four D-pad direction words (directinput.rs lines 423-438). -/
def hatDirections : List String := ["up", "down", "left", "right"]

/-- Non-D-pad button classification of `wait_for_input` (directinput.rs
lines 439-478) and `wait_for_multiple_inputs` (lines 922-955): a parsed
index yields `{pre}{inst}_button{index}`, and a parse failure yields the
fallback `{pre}{inst}_button_unknown`, which is still returned to the
caller. -/
def classify_button (pre : String) (inst : Nat) (code_str : String) : String :=
  let button_index := button_index_from_code code_str
  if 0 < button_index then
    String.mk (pre.data ++ decimalRepr inst ++ buttonTail.data ++ decimalRepr button_index)
  else String.mk (pre.data ++ decimalRepr inst ++ buttonUnknownTail.data)

/-- Non-D-pad button classification of `wait_for_inputs_with_events`
(directinput.rs lines 1277-1303): identical except that a parse failure
executes `continue`, dropping the event (`none`). -/
def classify_button_events (pre : String) (inst : Nat) (code_str : String) : Option String :=
  let button_index := button_index_from_code code_str
  if 0 < button_index then
    some (String.mk (pre.data ++ decimalRepr inst ++ buttonTail.data ++ decimalRepr button_index))
  else none

/-- D-pad string `{pre}{inst}_hat1_{dir}` (directinput.rs lines 422-438). -/
def hat_input (pre : String) (inst : Nat) (dir : String) : String :=
  String.mk (pre.data ++ decimalRepr inst ++ hatTail.data ++ dir.data)

/-- Axis trigger string `{pre}{inst}_axis{index}_{direction}`
(directinput.rs lines 593-597). -/
def axis_input (pre : String) (inst : Nat) (axis_index : Nat) (positive : Bool) : String :=
  String.mk (pre.data ++ decimalRepr inst ++ axisTail.data ++ decimalRepr axis_index ++
    '_' :: (if positive then positiveDir else negativeDir).data)

/-- Generic-backend axis classification skeleton shared by all three
protocols (directinput.rs lines 520-528, 1005-1012, 1354-1361): a code
whose `extract_code_info` fails, or which reports a button kind, drops the
event; `fired` abstracts the debounce decision for the surviving codes. -/
def classify_axis (pre : String) (inst : Nat) (code_str : String) (fired : Option Bool) :
    Option String :=
  match extract_code_info code_str with
  | none => none
  | some (is_axis, axis_index) =>
    if is_axis = false then none
    else if 0 < axis_index then
      match fired with
      | some d => some (axis_input pre inst axis_index d)
      | none => none
    else none

/-! ## The canonical grammar of spec section 3, as a decision procedure -/

/-- Greedy split of a leading digit run, used to parse `{instance}` and
`{index?}`. -/
def takeDigits : List Char → List Char × List Char
  | [] => ([], [])
  | c :: cs =>
    if c.isDigit then ((c :: (takeDigits cs).1), (takeDigits cs).2)
    else ([], c :: cs)

/-- The direction words admitted by the grammar. -/
def directionWords : List String :=
  ["up", "down", "left", "right", "positive", "negative"]

/-- Accepts the optional `_{direction}` suffix. -/
def checkTailDir (cs : List Char) : Bool :=
  match cs with
  | [] => true
  | u :: rest => u == '_' && directionWords.any (fun d => d.data == rest)

/-- Accepts `{index?}` then the optional direction suffix. -/
def checkIdxDir (cs : List Char) : Bool := checkTailDir (takeDigits cs).2

/-- Literal `"button"` kind word. -/
def buttonKind : String := "button"

/-- Literal `"axis"` kind word. -/
def axisKind : String := "axis"

/-- Literal `"hat1"` kind word. -/
def hatKind : String := "hat1"

/-- Accepts `{kind}{index?}_{direction?}` with kind in {button, axis,
hat1}. -/
def checkKindPart (cs : List Char) : Bool :=
  if listStartsWith buttonKind.data cs then checkIdxDir (cs.drop 6)
  else if listStartsWith axisKind.data cs then checkIdxDir (cs.drop 4)
  else if listStartsWith hatKind.data cs then checkTailDir (cs.drop 4)
  else false

/-- Accepts `{instance}_{kind}...` with a nonempty digit instance. -/
def checkInstKind (cs : List Char) : Bool :=
  (!(takeDigits cs).1.isEmpty) &&
    (match (takeDigits cs).2 with
      | u :: rest => u == '_' && checkKindPart rest
      | [] => false)

/-- Decision procedure for the canonical grammar of spec section 3, written
from the spec's words as the comparator for the strings the code builds:
`{prefix}{instance}_{kind}{index?}_{direction?}` with prefix in {js, gp},
instance a nonempty digit string, kind in {button, axis, hat1}, index a
digit string, and direction in {up, down, left, right, positive,
negative}. -/
def canonicalInput (s : String) : Bool :=
  if listStartsWith jsPre.data s.data then checkInstKind (s.data.drop 2)
  else if listStartsWith gpPre.data s.data then checkInstKind (s.data.drop 2)
  else false

/-! ### Grammar conformance of the built strings -/

/-- Literal `"_unknown"` suffix of the fallback string. -/
def unknownSuffix : String := "_unknown"

/-- The word `"up"`. -/
def upDir : String := "up"

/-- Legacy-backend button string `gp{slot+1}_button{n}` (directinput.rs
lines 710, 1537). -/
def xinput_button_input (inst button_num : Nat) : String :=
  String.mk (gpPre.data ++ decimalRepr inst ++ buttonTail.data ++ decimalRepr button_num)

/-! ## Device identity resolution (directinput.rs lines 237-253, 482, 591,
982, 1084, 1331, 1428) -/

/-- Lowercase hex digit character for a value below 16. -/
def hexChar (n : Nat) : Char :=
  if n < 10 then Char.ofNat (48 + n) else Char.ofNat (87 + n)

/-- Two lowercase hex digits of one byte, as `format!("{:02x}", byte)`
produces for `byte < 256` (directinput.rs line 245). -/
def byteHexChars (b : Nat) : List Char := [hexChar (b / 16), hexChar (b % 16)]

/-- Mirrors `resolve_device_uuid` (directinput.rs lines 237-248): an
all-zero 16-byte signature falls back to `"{name}_{fallback_id}"`, otherwise
the bytes are hex-encoded, lowercase, with no separators. -/
def resolve_device_uuid (raw : List Nat) (name : String) (fallback_id : Nat) : String :=
  if raw.all (fun b => b == 0) then
    String.mk (name.data ++ '_' :: decimalRepr fallback_id)
  else String.mk (List.flatten (raw.map byteHexChars))

/-- Literal `"xinput_"`. -/
def xinputPre : String := "xinput_"

/-- Mirrors `resolve_xinput_uuid` (directinput.rs lines 250-253):
`"xinput_{slot}"` with the 0-based slot number. -/
def resolve_xinput_uuid (controller_id : Nat) : String :=
  String.mk (xinputPre.data ++ decimalRepr controller_id)

/-- Comma-and-space separated decimal byte list, the element layout of
Rust's `Debug` formatting of a `[u8; 16]`. -/
def commaSepReprs : List Nat → List Char
  | [] => []
  | [b] => decimalRepr b
  | b :: b2 :: rest => decimalRepr b ++ ',' :: ' ' :: commaSepReprs (b2 :: rest)

/-- Debug formatting `format!("{:?}", bytes)` of the raw signature byte
array: `[b0, b1, ...]`. -/
def debugFormatBytes (raw : List Nat) : String :=
  String.mk ('[' :: (commaSepReprs raw ++ [']']))

/-- The `device_uuid` actually attached to generic-backend events by
`wait_for_multiple_inputs` (directinput.rs lines 982, 1084) and
`wait_for_inputs_with_events` (lines 1331, 1428):
`format!("{:?}", gamepad.uuid())`, the Debug form of the raw bytes, not
`resolve_device_uuid`. -/
def wfmi_device_uuid (raw : List Nat) : String := debugFormatBytes raw

/-- The `device_uuid` attached to generic-backend events by
`wait_for_input` (directinput.rs lines 482, 591): the resolver contract. -/
def wfi_device_uuid (raw : List Nat) (name : String) (fallback_id : Nat) : String :=
  resolve_device_uuid raw name fallback_id

/-- Concrete 16-byte signature with two nonzero bytes. -/
def exUuid : List Nat := [18, 52, 0, 0, 0, 0, 0, 0, 0, 0, 0, 0, 0, 0, 0, 0]

/-- Concrete all-zero 16-byte signature. -/
def zeroUuid : List Nat := List.replicate 16 0

/-- Concrete raw device name. -/
def exDeviceName : String := "Generic Gamepad"

/-- Lowercase hexadecimal alphabet test. -/
def isLowerHexChar (c : Char) : Bool := c.isDigit || ('a' ≤ c && c ≤ 'f')

/-! ## Collect-burst accumulation (directinput.rs lines 857-892, 1109-1127) -/

/-- Trimmed `DetectedInput` carrying the fields the accumulation logic
reads (the dedup test reads only `input_string`; the rest rides along). -/
structure DetectedInputM where
  input_string : String
  display_name : String
  device_uuid : Option String
deriving Repr, DecidableEq

/-- One acceptance step of `wait_for_multiple_inputs` (directinput.rs lines
1109-1121): append the event unless an element with the same
`input_string` is already present. -/
def insertInput (acc : List DetectedInputM) (i : DetectedInputM) : List DetectedInputM :=
  if acc.any (fun j => j.input_string == i.input_string) then acc else acc ++ [i]

/-- The accumulated result list over a session's accepted events in
arrival order. -/
def collectInputs (events : List DetectedInputM) : List DetectedInputM :=
  events.foldl insertInput []

/-- Written from the claim's words, as the comparator: the unique strings
in first-seen order. -/
def firstSeenStrings (ss : List String) : List String :=
  ss.foldl (fun acc s => if s ∈ acc then acc else acc ++ [s]) []

/-! ## Timeout and error semantics (directinput.rs lines 295-313, 389,
849-852, 857-892, 1124-1127) -/

/-- First detection over the loop's deadline-bounded ticks: the source's
`while start.elapsed() < timeout` loop (directinput.rs line 389) returns on
the first qualifying event and falls through to `Ok(None)` (line 852) when
every tick passes without one. -/
def firstDetection : List (Option DetectedInputM) → Option DetectedInputM
  | [] => none
  | some x :: _ => some x
  | none :: rest => firstDetection rest

/-- Skeleton of `wait_for_input` (directinput.rs lines 295-313, 389-852):
`Gilrs::new()` failure (line 299) or `XInputHandle::load_default()` failure
(lines 311-312) surface as `Err` before the capture loop starts; otherwise
the loop yields the first detection, or `Ok(None)` on timeout. -/
def wait_for_input_model (gilrsInit xinputInit : Except String Unit)
    (ticks : List (Option DetectedInputM)) : Except String (Option DetectedInputM) :=
  match gilrsInit with
  | .error e => .error e
  | .ok _ =>
    match xinputInit with
    | .error e => .error e
    | .ok _ => .ok (firstDetection ticks)

/-- Skeleton of `wait_for_multiple_inputs` (directinput.rs lines 857-892,
1124-1127): `Gilrs::new()` failure (line 862) surfaces as `Err` before the
loop; otherwise the accepted events of the deadline-bounded session pass
through the unique-insertion filter and the collected list — possibly
empty — is returned with `Ok` (line 1126). -/
def wait_for_multiple_inputs_model (gilrsInit : Except String Unit)
    (tickEvents : List (List DetectedInputM)) : Except String (List DetectedInputM) :=
  match gilrsInit with
  | .error e => .error e
  | .ok _ => .ok (collectInputs tickEvents.flatten)

/-- Concrete initialization failure message. -/
def exInitError : String := "device service unavailable"

/-! ## Per-tick backend ordering (directinput.rs lines 389-846, 878-1123,
1221-1694) -/

/-- One processing step of a capture-loop tick: handling one pending
generic-backend event, or polling one legacy-backend slot. -/
inductive PollStep where
  | generic (eventIdx : Nat)
  | legacy (slot : Nat)
deriving Repr, DecidableEq

/-- Tick skeleton of `wait_for_input` (directinput.rs lines 389-846): the
inner `while let Some(event) = gilrs.next_event()` drains all pending
generic-backend events in arrival order (lines 391-628), then
`for controller_id in 0..4` polls the legacy slots in ascending order
(lines 631-846). -/
def wfi_tick_trace (genericEvents : List Nat) : List PollStep :=
  genericEvents.map PollStep.generic ++
    [PollStep.legacy 0, PollStep.legacy 1, PollStep.legacy 2, PollStep.legacy 3]

/-- Tick skeleton of `wait_for_inputs_with_events` (directinput.rs lines
1247-1694): generic drain (lines 1247-1462) then ascending legacy slots
(lines 1465-1694), as in `wait_for_input`. -/
def wfie_tick_trace (genericEvents : List Nat) : List PollStep :=
  genericEvents.map PollStep.generic ++
    [PollStep.legacy 0, PollStep.legacy 1, PollStep.legacy 2, PollStep.legacy 3]

/-- Tick skeleton of `wait_for_multiple_inputs` (directinput.rs lines
878-1123): the loop body contains only the generic-backend drain
(`gilrs.next_event_blocking`, lines 892-1123); no XInput handle is created
and no legacy slot is ever polled. -/
def wfmi_tick_trace (genericEvents : List Nat) : List PollStep :=
  genericEvents.map PollStep.generic

/-! ## Legacy-backend button diffing (directinput.rs lines 631-735, 843-845,
1465-1573, 1692) -/

/-- Mask-to-number chain mirroring the if-else cascade at directinput.rs
lines 645-703 / 1474-1532: A (0x1000), B (0x2000), X (0x4000), Y (0x8000),
LB (0x0100), RB (0x0200), Back (0x0010), Start (0x0020), LS (0x0040),
RS (0x0080), DPad-Up (0x0001), DPad-Down (0x0002), DPad-Left (0x0004),
DPad-Right (0x0008); an empty intersection yields 0. -/
def xinput_button_num (buttons_pressed : Nat) : Nat :=
  if buttons_pressed &&& 4096 ≠ 0 then 1
  else if buttons_pressed &&& 8192 ≠ 0 then 2
  else if buttons_pressed &&& 16384 ≠ 0 then 3
  else if buttons_pressed &&& 32768 ≠ 0 then 4
  else if buttons_pressed &&& 256 ≠ 0 then 5
  else if buttons_pressed &&& 512 ≠ 0 then 6
  else if buttons_pressed &&& 16 ≠ 0 then 7
  else if buttons_pressed &&& 32 ≠ 0 then 8
  else if buttons_pressed &&& 64 ≠ 0 then 9
  else if buttons_pressed &&& 128 ≠ 0 then 10
  else if buttons_pressed &&& 1 ≠ 0 then 11
  else if buttons_pressed &&& 2 ≠ 0 then 12
  else if buttons_pressed &&& 4 ≠ 0 then 13
  else if buttons_pressed &&& 8 ≠ 0 then 14
  else 0

/-- The fixed (mask, button-number) priority list in chain order. -/
def XINPUT_BUTTON_MASKS : List (Nat × Nat) :=
  [(4096, 1), (8192, 2), (16384, 3), (32768, 4), (256, 5), (512, 6), (16, 7),
   (32, 8), (64, 9), (128, 10), (1, 11), (2, 12), (4, 13), (8, 14)]

/-- Written from the claim's words, as the comparator: the number of the
first entry in the priority list whose mask intersects the newly-pressed
set. -/
def priority_first : List (Nat × Nat) → Nat → Nat
  | [], _ => 0
  | (m, n) :: rest, pressed => if pressed &&& m ≠ 0 then n else priority_first rest pressed

/-- One legacy-slot poll (directinput.rs lines 632-735 / 1466-1573 plus the
snapshot overwrite at lines 843-845 / 1692): diff the current 16-bit button
mask against the previous snapshot (`cur & !prev`), emit the chain's button
number when the diff is nonzero and the chain recognizes a button, and
overwrite the snapshot with the full current mask. -/
def xinput_poll_slot (prev cur : Nat) : Option Nat × Nat :=
  let buttons_pressed := cur &&& (65535 ^^^ prev)
  (if buttons_pressed ≠ 0 then
      (if 0 < xinput_button_num buttons_pressed then some (xinput_button_num buttons_pressed)
        else none)
    else none, cur)

/-- Poll one slot over consecutive ticks with hardware button states
`curs`, threading the snapshot and collecting the emitted button numbers. -/
def xinput_run (prev : Nat) : List Nat → List Nat
  | [] => []
  | cur :: rest =>
    match (xinput_poll_slot prev cur).1 with
    | some n => n :: xinput_run (xinput_poll_slot prev cur).2 rest
    | none => xinput_run (xinput_poll_slot prev cur).2 rest

/-! ## Theorems -/

theorem debounceReset_center (s : AxisState) (v : ℚ) (h : |v| < AXIS_RESET_THRESHOLD) :
    debounceReset s v = { last_value := v, last_triggered_direction := none } := by
  simp [debounceReset, h]

theorem debounceReset_off (s : AxisState) (v : ℚ) (h : ¬ |v| < AXIS_RESET_THRESHOLD) :
    debounceReset s v = s := by
  simp [debounceReset, h]

/-- Centered observation: the state resets and nothing fires. -/
theorem debounceStep_center (s : AxisState) (v : ℚ) (h : |v| < AXIS_RESET_THRESHOLD) :
    debounceStep s v = ({ last_value := v, last_triggered_direction := none }, none) := by
  have hv := abs_lt.mp h
  rw [AXIS_RESET_THRESHOLD] at hv
  unfold debounceStep
  rw [debounceReset_center s v h, if_neg, if_neg]
  · rintro ⟨h1, -, -⟩
    rw [AXIS_TRIGGER_THRESHOLD] at h1
    linarith [hv.1, hv.2]
  · rintro ⟨h1, -, -⟩
    rw [AXIS_TRIGGER_THRESHOLD] at h1
    linarith [hv.1, hv.2]

/-- Off-center observation with insufficient movement delta: nothing fires
and the state is unchanged. -/
theorem debounceStep_idle_small (s : AxisState) (v : ℚ)
    (hc : ¬ |v| < AXIS_RESET_THRESHOLD) (hm : ¬ MOVEMENT_THRESHOLD < |v - s.last_value|) :
    debounceStep s v = (s, none) := by
  unfold debounceStep
  rw [debounceReset_off s v hc, if_neg, if_neg]
  · rintro ⟨-, h2, -⟩; exact hm h2
  · rintro ⟨-, h2, -⟩; exact hm h2

/-- Off-center observation strictly between the thresholds: nothing fires
and the state is unchanged. -/
theorem debounceStep_idle_mid (s : AxisState) (v : ℚ)
    (hc : ¬ |v| < AXIS_RESET_THRESHOLD) (hp : ¬ AXIS_TRIGGER_THRESHOLD < v)
    (hn : ¬ v < -AXIS_TRIGGER_THRESHOLD) :
    debounceStep s v = (s, none) := by
  unfold debounceStep
  rw [debounceReset_off s v hc, if_neg, if_neg]
  · rintro ⟨h1, -, -⟩; exact hn h1
  · rintro ⟨h1, -, -⟩; exact hp h1

/-- Observation that blocks on the already-triggered direction: a positive
deflection while the recorded direction is already positive never re-fires. -/
theorem debounceStep_blocked_pos (s : AxisState) (v : ℚ)
    (hp : AXIS_TRIGGER_THRESHOLD < v) (hl : s.last_triggered_direction = some true) :
    debounceStep s v = (s, none) := by
  have hT : (1/2 : ℚ) ≤ v := le_of_lt (by rw [AXIS_TRIGGER_THRESHOLD] at hp; exact hp)
  have hc : ¬ |v| < AXIS_RESET_THRESHOLD := by
    rw [AXIS_RESET_THRESHOLD, not_lt]
    calc (3/10 : ℚ) ≤ 1/2 := by norm_num
    _ ≤ v := hT
    _ ≤ |v| := le_abs_self v
  unfold debounceStep
  rw [debounceReset_off s v hc, if_neg, if_neg]
  · rintro ⟨h1, -, -⟩
    rw [AXIS_TRIGGER_THRESHOLD] at h1
    linarith
  · rintro ⟨-, -, h3⟩; exact h3 hl

/-- Positive trigger: deflection past the trigger threshold, movement past
the movement threshold, and the positive direction not yet recorded. -/
theorem debounceStep_fire_pos (s : AxisState) (v : ℚ)
    (hp : AXIS_TRIGGER_THRESHOLD < v) (hm : MOVEMENT_THRESHOLD < |v - s.last_value|)
    (hl : s.last_triggered_direction ≠ some true) :
    debounceStep s v = ({ last_value := v, last_triggered_direction := some true }, some true) := by
  have hc : ¬ |v| < AXIS_RESET_THRESHOLD := by
    rw [AXIS_RESET_THRESHOLD, not_lt]
    have h1 : (1/2 : ℚ) < v := by rw [AXIS_TRIGGER_THRESHOLD] at hp; exact hp
    calc (3/10 : ℚ) ≤ 1/2 := by norm_num
    _ ≤ v := le_of_lt h1
    _ ≤ |v| := le_abs_self v
  unfold debounceStep
  rw [debounceReset_off s v hc, if_pos ⟨hp, hm, hl⟩]

/-- Negative trigger, symmetric to `debounceStep_fire_pos`. -/
theorem debounceStep_fire_neg (s : AxisState) (v : ℚ)
    (hn : v < -AXIS_TRIGGER_THRESHOLD) (hm : MOVEMENT_THRESHOLD < |v - s.last_value|)
    (hl : s.last_triggered_direction ≠ some false) :
    debounceStep s v = ({ last_value := v, last_triggered_direction := some false }, some false) := by
  have h1 : v < -(1/2 : ℚ) := by rw [AXIS_TRIGGER_THRESHOLD] at hn; exact hn
  have hc : ¬ |v| < AXIS_RESET_THRESHOLD := by
    rw [AXIS_RESET_THRESHOLD, not_lt]
    calc (3/10 : ℚ) ≤ 1/2 := by norm_num
    _ ≤ -v := by linarith
    _ ≤ |v| := neg_le_abs v
  unfold debounceStep
  rw [debounceReset_off s v hc, if_neg, if_pos ⟨hn, hm, hl⟩]
  rintro ⟨h2, -, -⟩
  rw [AXIS_TRIGGER_THRESHOLD] at h2
  linarith

/-- Case split for an off-center observation of the delta-gated debounce:
either a direction fires (and that direction was not the recorded one), or
the state is returned unchanged. -/
theorem debounceStep_cases (s : AxisState) (v : ℚ) (h : ¬ |v| < AXIS_RESET_THRESHOLD) :
    (debounceStep s v = ({ last_value := v, last_triggered_direction := some true }, some true) ∧
      s.last_triggered_direction ≠ some true) ∨
    (debounceStep s v = ({ last_value := v, last_triggered_direction := some false }, some false) ∧
      s.last_triggered_direction ≠ some false) ∨
    debounceStep s v = (s, none) := by
  unfold debounceStep
  rw [debounceReset_off s v h]
  split_ifs with h1 h2
  · exact Or.inl ⟨rfl, h1.2.2⟩
  · exact Or.inr (Or.inl ⟨rfl, h2.2.2⟩)
  · exact Or.inr (Or.inr rfl)

/-- Strengthened alternation invariant: over any observation sequence that
never enters the reset band, the fired directions form an alternating list,
and the first fired direction differs from the direction recorded in the
starting state. -/
theorem debounceRun_alternates (vs : List ℚ) : ∀ s : AxisState,
    (∀ v ∈ vs, ¬ |v| < AXIS_RESET_THRESHOLD) →
    List.Chain' (fun a b => a ≠ b) (debounceRun s vs).2 ∧
    (∀ d : Bool, s.last_triggered_direction = some d →
      ((debounceRun s vs).2).head? ≠ some d) := by
  induction vs with
  | nil =>
    intro s _
    simp [debounceRun]
  | cons v vs ih =>
    intro s h
    have hv : ¬ |v| < AXIS_RESET_THRESHOLD := h v (List.mem_cons_self v vs)
    have hrest : ∀ w ∈ vs, ¬ |w| < AXIS_RESET_THRESHOLD :=
      fun w hw => h w (List.mem_cons_of_mem v hw)
    rcases debounceStep_cases s v hv with ⟨heq, hne⟩ | ⟨heq, hne⟩ | heq
    · obtain ⟨hchain, hhead⟩ := ih ⟨v, some true⟩ hrest
      constructor
      · simp only [debounceRun, heq]
        refine List.chain'_cons'.mpr ⟨?_, hchain⟩
        intro y hy
        have := hhead true rfl
        intro hcontra
        subst hcontra
        exact this (Option.mem_def.mp hy)
      · intro d hd
        simp only [debounceRun, heq, List.head?_cons]
        intro hcontra
        apply hne
        rw [hd]
        have : true = d := by injection hcontra
        rw [this]
    · obtain ⟨hchain, hhead⟩ := ih ⟨v, some false⟩ hrest
      constructor
      · simp only [debounceRun, heq]
        refine List.chain'_cons'.mpr ⟨?_, hchain⟩
        intro y hy
        have := hhead false rfl
        intro hcontra
        subst hcontra
        exact this (Option.mem_def.mp hy)
      · intro d hd
        simp only [debounceRun, heq, List.head?_cons]
        intro hcontra
        apply hne
        rw [hd]
        have : false = d := by injection hcontra
        rw [this]
    · obtain ⟨hchain, hhead⟩ := ih s hrest
      constructor
      · simpa only [debounceRun, heq] using hchain
      · intro d hd
        simpa only [debounceRun, heq] using hhead d hd

/-- C2 counterexample: the observation sequence +0.6, −0.6, +0.6, −0.6 of a
single axis key never enters the reset band, yet the delta-gated debounce
(shared by `wait_for_input` and `wait_for_multiple_inputs`, and identical in
the legacy-backend paths) fires negative, positive, negative: two negative
triggers in total, refuting "at most one trigger per direction in total". -/
theorem C2_counterexample :
    debounceTriggers [3/5, -3/5, 3/5, -3/5] = [false, true, false] ∧
    (∀ v ∈ [(3/5 : ℚ), -3/5, 3/5, -3/5], AXIS_RESET_THRESHOLD ≤ |v|) ∧
    ¬ (debounceTriggers [3/5, -3/5, 3/5, -3/5]).count false ≤ 1 := by
  have habs1 : |(3/5 : ℚ)| = 3/5 := abs_of_nonneg (by norm_num)
  have habs2 : |(-3/5 : ℚ)| = 3/5 := by
    rw [show (-3/5 : ℚ) = -(3/5) by ring, abs_neg]
    exact habs1
  have h1 := debounceStep_idle_small ⟨3/5, none⟩ (3/5)
    (by rw [AXIS_RESET_THRESHOLD, habs1]; norm_num)
    (by rw [MOVEMENT_THRESHOLD]; norm_num)
  have h2 := debounceStep_fire_neg ⟨3/5, none⟩ (-3/5)
    (by rw [AXIS_TRIGGER_THRESHOLD]; norm_num)
    (by rw [MOVEMENT_THRESHOLD]; rw [show (-3/5 : ℚ) - 3/5 = -(6/5) by ring]
        rw [abs_neg, abs_of_nonneg] <;> norm_num)
    (by simp)
  have h3 := debounceStep_fire_pos ⟨-3/5, some false⟩ (3/5)
    (by rw [AXIS_TRIGGER_THRESHOLD]; norm_num)
    (by rw [MOVEMENT_THRESHOLD]; rw [show (3/5 : ℚ) - (-3/5) = 6/5 by ring]
        rw [abs_of_nonneg] <;> norm_num)
    (by simp)
  have h4 := debounceStep_fire_neg ⟨3/5, some true⟩ (-3/5)
    (by rw [AXIS_TRIGGER_THRESHOLD]; norm_num)
    (by rw [MOVEMENT_THRESHOLD]; rw [show (-3/5 : ℚ) - 3/5 = -(6/5) by ring]
        rw [abs_neg, abs_of_nonneg] <;> norm_num)
    (by simp)
  have hrun : debounceTriggers [3/5, -3/5, 3/5, -3/5] = [false, true, false] := by
    simp only [debounceTriggers, debounceRun, h1, h2, h3, h4]
  refine ⟨hrun, ?_, ?_⟩
  · intro v hv
    rw [AXIS_RESET_THRESHOLD]
    simp only [List.mem_cons, List.not_mem_nil, or_false] at hv
    rcases hv with rfl | rfl | rfl | rfl
    · rw [habs1]; norm_num
    · rw [habs2]; norm_num
    · rw [habs1]; norm_num
    · rw [habs2]; norm_num
  · rw [hrun]
    simp

/-- C2 (amended): over any observation sequence of one axis key that never
enters the reset band, the delta-gated debounce of `wait_for_input` /
`wait_for_multiple_inputs` (directinput.rs lines 536-576, 1012-1048) never
fires the same direction twice in a row — consecutive triggers strictly
alternate direction — though a direction may re-fire after the opposite
direction has fired. -/
theorem C2_debounce_alternates (vs : List ℚ)
    (h : ∀ v ∈ vs, AXIS_RESET_THRESHOLD ≤ |v|) :
    List.Chain' (fun a b => a ≠ b) (debounceTriggers vs) := by
  have h' : ∀ v ∈ vs, ¬ |v| < AXIS_RESET_THRESHOLD := fun v hv => not_lt.mpr (h v hv)
  cases vs with
  | nil => simp [debounceTriggers]
  | cons v vs =>
    exact (debounceRun_alternates (v :: vs) ⟨v, none⟩ h').1

/-- C2 witness: the amended alternation theorem applied to the concrete
oscillation +0.6, −0.6, +0.6, −0.6. -/
theorem C2_debounce_alternates_witness :
    List.Chain' (fun a b => a ≠ b) (debounceTriggers [3/5, -3/5, 3/5, -3/5]) := by
  apply C2_debounce_alternates
  intro v hv
  have habs1 : |(3/5 : ℚ)| = 3/5 := abs_of_nonneg (by norm_num)
  have habs2 : |(-3/5 : ℚ)| = 3/5 := by
    rw [show (-3/5 : ℚ) = -(3/5) by ring, abs_neg]
    exact habs1
  rw [AXIS_RESET_THRESHOLD]
  simp only [List.mem_cons, List.not_mem_nil, or_false] at hv
  rcases hv with rfl | rfl | rfl | rfl
  · rw [habs1]; norm_num
  · rw [habs2]; norm_num
  · rw [habs1]; norm_num
  · rw [habs2]; norm_num

/-- C3 counterexample: the sequence 0, 0.5, 0.3, 0.5 starts at 0, rises to a
value at (hence "at or above") 0.5, falls to a value at (hence "at or
below") 0.3, and rises again to 0.5, yet the debounce logic of
`wait_for_input` produces no positive trigger at all — the trigger
comparison is strict (`value > AXIS_TRIGGER_THRESHOLD`, line 544), so a
deflection of exactly 0.5 never fires — rather than the claimed exactly
two. -/
theorem C3_counterexample :
    debounceTriggers [0, 1/2, 3/10, 1/2] = [] ∧
    ((1/2 : ℚ) ≥ 1/2 ∧ (3/10 : ℚ) ≤ 3/10) ∧
    (debounceTriggers [0, 1/2, 3/10, 1/2]).count true ≠ 2 := by
  have habs0 : |(0 : ℚ)| = 0 := abs_zero
  have habs1 : |(1/2 : ℚ)| = 1/2 := abs_of_nonneg (by norm_num)
  have habs3 : |(3/10 : ℚ)| = 3/10 := abs_of_nonneg (by norm_num)
  have h1 := debounceStep_center ⟨0, none⟩ 0
    (by rw [AXIS_RESET_THRESHOLD, habs0]; norm_num)
  have h2 := debounceStep_idle_mid ⟨0, none⟩ (1/2)
    (by rw [AXIS_RESET_THRESHOLD, habs1]; norm_num)
    (by rw [AXIS_TRIGGER_THRESHOLD]; norm_num)
    (by rw [AXIS_TRIGGER_THRESHOLD]; norm_num)
  have h3 := debounceStep_idle_mid ⟨0, none⟩ (3/10)
    (by rw [AXIS_RESET_THRESHOLD, habs3]; norm_num)
    (by rw [AXIS_TRIGGER_THRESHOLD]; norm_num)
    (by rw [AXIS_TRIGGER_THRESHOLD]; norm_num)
  have hrun : debounceTriggers [0, 1/2, 3/10, 1/2] = [] := by
    simp only [debounceTriggers, debounceRun, h1, h2, h3]
  refine ⟨hrun, ⟨le_refl _, le_refl _⟩, ?_⟩
  rw [hrun]
  simp

/-- C3 (amended): for a freshly observed axis, a four-observation excursion
sequence 0, a, b, c with a strictly above the trigger threshold, b strictly
inside the reset band, c strictly above the trigger threshold and the
second rise exceeding the movement threshold relative to b, the delta-gated
debounce of `wait_for_input` fires exactly two positive triggers, one per
excursion. -/
theorem C3_two_excursions (a b c : ℚ)
    (ha : AXIS_TRIGGER_THRESHOLD < a) (hb : |b| < AXIS_RESET_THRESHOLD)
    (hc : AXIS_TRIGGER_THRESHOLD < c) (hcb : MOVEMENT_THRESHOLD < c - b) :
    debounceTriggers [0, a, b, c] = [true, true] := by
  have ha' : (1/2 : ℚ) < a := by rw [AXIS_TRIGGER_THRESHOLD] at ha; exact ha
  have hc' : (1/2 : ℚ) < c := by rw [AXIS_TRIGGER_THRESHOLD] at hc; exact hc
  have hcb' : (3/10 : ℚ) < c - b := by rw [MOVEMENT_THRESHOLD] at hcb; exact hcb
  have h1 := debounceStep_center ⟨0, none⟩ 0
    (by rw [AXIS_RESET_THRESHOLD, abs_zero]; norm_num)
  have h2 := debounceStep_fire_pos ⟨0, none⟩ a ha
    (by rw [MOVEMENT_THRESHOLD, sub_zero, abs_of_pos (by linarith)]; linarith)
    (by simp)
  have h3 := debounceStep_center ⟨a, some true⟩ b hb
  have h4 := debounceStep_fire_pos ⟨b, none⟩ c hc
    (by rw [MOVEMENT_THRESHOLD, abs_of_pos (by linarith)]; linarith)
    (by simp)
  simp only [debounceTriggers, debounceRun, h1, h2, h3, h4]

/-- C3 witness: the amended theorem at the concrete excursion sequence
0, 0.6, 0.2, 0.6, which fires exactly two positive triggers. -/
theorem C3_two_excursions_witness : debounceTriggers [0, 3/5, 1/5, 3/5] = [true, true] := by
  apply C3_two_excursions
  · rw [AXIS_TRIGGER_THRESHOLD]; norm_num
  · rw [AXIS_RESET_THRESHOLD, abs_of_nonneg (by norm_num : (0:ℚ) ≤ 1/5)]; norm_num
  · rw [AXIS_TRIGGER_THRESHOLD]; norm_num
  · rw [MOVEMENT_THRESHOLD]; norm_num

/-- Evaluation of the `wait_for_inputs_with_events` debounce on a freshly
seeded state processing the very observation that seeded it. -/
theorem debounceStepEvents_fresh (v : ℚ) :
    debounceStepEvents { last_value := v, last_triggered_direction := none } v =
      if AXIS_TRIGGER_THRESHOLD ≤ |v| then
        ({ last_value := v, last_triggered_direction := some (decide (0 < v)) },
          some (decide (0 < v)))
      else ({ last_value := v, last_triggered_direction := none }, none) := by
  unfold debounceStepEvents
  by_cases h : AXIS_TRIGGER_THRESHOLD ≤ |v|
  · simp [h]
  · simp [h]

/-- C4 counterexample: in the generic-backend axis path of
`wait_for_inputs_with_events` (directinput.rs lines 1361-1390), the very
first observation of an axis key, with value 0.8, fires a positive trigger
immediately: the state is indeed seeded with the observed value, but that
debounce never consults the movement delta, so the "no trigger on first
observation, by construction delta = 0" claim fails for this protocol. -/
theorem C4_counterexample : debounceTriggersEvents [4/5] = [true] := by
  have habs : |(4/5 : ℚ)| = 4/5 := abs_of_nonneg (by norm_num)
  have h := debounceStepEvents_fresh (4/5)
  rw [if_pos (by rw [AXIS_TRIGGER_THRESHOLD, habs]; norm_num)] at h
  have hpos : decide ((0:ℚ) < 4/5) = true := by
    simp only [decide_eq_true_eq]
    norm_num
  rw [hpos] at h
  simp only [debounceTriggersEvents, debounceRunEvents, h]

/-- C4 (amended): the first observation of an axis key never fires under the
delta-gated debounce of `wait_for_input` / `wait_for_multiple_inputs` and of
every legacy-backend axis path (the seeded state makes the movement delta 0);
but under the `wait_for_inputs_with_events` generic-backend debounce the
first observation fires exactly when its absolute value reaches the trigger
threshold, with the trigger direction given by the sign of the value. -/
theorem C4_first_observation :
    (∀ v : ℚ, (debounceStep { last_value := v, last_triggered_direction := none } v).2 = none) ∧
    (∀ v : ℚ, AXIS_TRIGGER_THRESHOLD ≤ |v| →
      (debounceStepEvents { last_value := v, last_triggered_direction := none } v).2 =
        some (decide (0 < v))) ∧
    (∀ v : ℚ, |v| < AXIS_TRIGGER_THRESHOLD →
      (debounceStepEvents { last_value := v, last_triggered_direction := none } v).2 = none) := by
  refine ⟨?_, ?_, ?_⟩
  · intro v
    by_cases hc : |v| < AXIS_RESET_THRESHOLD
    · rw [debounceStep_center _ v hc]
    · rw [debounceStep_idle_small _ v hc]
      rw [sub_self, abs_zero, MOVEMENT_THRESHOLD]
      norm_num
  · intro v h
    rw [debounceStepEvents_fresh v, if_pos h]
  · intro v h
    rw [debounceStepEvents_fresh v, if_neg (not_le.mpr h)]

/-- C4 witness: the amended first-observation theorem at the concrete values
0.8 (delta path silent, events path fires positive) and 0.2 (events path
silent). -/
theorem C4_first_observation_witness :
    (debounceStep { last_value := (4/5 : ℚ), last_triggered_direction := none } (4/5)).2 = none ∧
    (debounceStepEvents { last_value := (4/5 : ℚ), last_triggered_direction := none } (4/5)).2 =
      some (decide ((0:ℚ) < 4/5)) ∧
    (debounceStepEvents { last_value := (1/5 : ℚ), last_triggered_direction := none } (1/5)).2 =
      none := by
  refine ⟨C4_first_observation.1 (4/5), C4_first_observation.2.1 (4/5) ?_,
    C4_first_observation.2.2 (1/5) ?_⟩
  · rw [AXIS_TRIGGER_THRESHOLD, abs_of_nonneg (by norm_num : (0:ℚ) ≤ 4/5)]
    norm_num
  · rw [AXIS_TRIGGER_THRESHOLD, abs_of_nonneg (by norm_num : (0:ℚ) ≤ 1/5)]
    norm_num

/-- C6: device class is decided by case-insensitive substring matching with
the joystick indicator list checked before the gamepad indicator list (a
joystick match wins regardless of any gamepad match), and a name matching
neither list defaults to Joystick (`is_gamepad = false`); "VKB Gladiator
NXT" classifies as Joystick and "Xbox Wireless Controller" as Gamepad. -/
theorem C6_device_class :
    is_gamepad vkbGladiatorName = false ∧
    is_gamepad xboxControllerName = true ∧
    (∀ name : String,
      (joystick_indicators.any fun ind => strContainsSub (strToLower name) ind) = true →
      is_gamepad name = false) ∧
    (∀ name : String,
      (joystick_indicators.any fun ind => strContainsSub (strToLower name) ind) = false →
      (gamepad_indicators.any fun ind => strContainsSub (strToLower name) ind) = false →
      is_gamepad name = false) := by
  refine ⟨by decide, by decide, ?_, ?_⟩
  · intro name h
    simp only [is_gamepad, h]
    rfl
  · intro name h1 h2
    simp only [is_gamepad, h1, h2]
    rfl

/-- C6 witness: the joystick-priority clause applied to a name containing
both a joystick and a gamepad keyword, and the default clause applied to a
name containing neither. -/
theorem C6_device_class_witness :
    is_gamepad hybridName = false ∧ is_gamepad mysteryName = false := by
  constructor
  · exact C6_device_class.2.2.1 hybridName (by decide)
  · exact C6_device_class.2.2.2 mysteryName (by decide) (by decide)

example : button_index_from_code exButtonCode = 3 := by decide
example : button_index_from_code exBadCode = 0 := by decide
example : extract_code_info exAxisCode = some (true, 2) := by decide
example : extract_code_info exBadAxisCode = none := by decide

example : canonicalInput (classify_button jsPre 2 exButtonCode) = true := by decide
example : classify_button jsPre 2 exButtonCode = "js2_button3" := by decide
example : classify_button jsPre 1 exBadCode = "js1_button_unknown" := by decide
example : canonicalInput (classify_button jsPre 1 exBadCode) = false := by decide
example : canonicalInput (axis_input gpPre 1 1 false) = true := by decide
example : axis_input gpPre 1 1 false = "gp1_axis1_negative" := by decide

theorem data_mk (l : List Char) : (String.mk l).data = l := rfl

theorem digitChar_isDigit (n : Nat) (h : n < 10) : (digitChar n).isDigit = true := by
  interval_cases n <;> decide

theorem decimalDigitsAux_digits :
    ∀ fuel n c, c ∈ decimalDigitsAux fuel n → c.isDigit = true := by
  intro fuel
  induction fuel with
  | zero =>
    intro n c hc
    simp [decimalDigitsAux] at hc
  | succ fuel ih =>
    intro n c hc
    rw [decimalDigitsAux] at hc
    by_cases h : n < 10
    · rw [if_pos h] at hc
      simp only [List.mem_singleton] at hc
      subst hc
      exact digitChar_isDigit n h
    · rw [if_neg h] at hc
      rcases List.mem_append.mp hc with h1 | h1
      · exact ih _ c h1
      · simp only [List.mem_singleton] at h1
        subst h1
        exact digitChar_isDigit _ (Nat.mod_lt n (by norm_num))

theorem decimalRepr_digits (n : Nat) : ∀ c ∈ decimalRepr n, c.isDigit = true :=
  fun c hc => decimalDigitsAux_digits (n+1) n c hc

theorem decimalRepr_ne_nil (n : Nat) : decimalRepr n ≠ [] := by
  rw [decimalRepr, decimalDigitsAux]
  by_cases h : n < 10
  · rw [if_pos h]
    simp
  · rw [if_neg h]
    simp

theorem listStartsWith_append (xs t : List Char) : listStartsWith xs (xs ++ t) = true := by
  induction xs with
  | nil => rfl
  | cons a as ih => simp [listStartsWith, ih]

theorem takeDigits_of_digits (ds : List Char) (h : ∀ c ∈ ds, c.isDigit = true) :
    takeDigits ds = (ds, []) := by
  induction ds with
  | nil => rfl
  | cons d ds ih =>
    simp only [takeDigits]
    rw [if_pos (h d (List.mem_cons_self d ds)),
      ih (fun c hc => h c (List.mem_cons_of_mem d hc))]

theorem takeDigits_append_nondigit (ds : List Char) (c : Char) (t : List Char)
    (h : ∀ x ∈ ds, x.isDigit = true) (hc : c.isDigit = false) :
    takeDigits (ds ++ c :: t) = (ds, c :: t) := by
  induction ds with
  | nil =>
    simp only [List.nil_append, takeDigits]
    rw [if_neg (by rw [hc]; exact Bool.false_ne_true)]
  | cons d ds ih =>
    simp only [List.cons_append, takeDigits, List.append_eq]
    rw [if_pos (h d (List.mem_cons_self d ds)),
      ih (fun x hx => h x (List.mem_cons_of_mem d hx))]

theorem checkInstKind_eq (inst : Nat) (rest : List Char) :
    checkInstKind (decimalRepr inst ++ '_' :: rest) = checkKindPart rest := by
  have hd := takeDigits_append_nondigit (decimalRepr inst) '_' rest
    (decimalRepr_digits inst) (by decide)
  obtain ⟨d, ds, hds⟩ : ∃ d ds, decimalRepr inst = d :: ds := by
    cases h' : decimalRepr inst with
    | nil => exact absurd h' (decimalRepr_ne_nil inst)
    | cons d ds => exact ⟨d, ds, rfl⟩
  simp only [checkInstKind]
  rw [hd, hds]
  simp

theorem canonicalInput_build (pre : String) (hpre : pre = jsPre ∨ pre = gpPre)
    (inst : Nat) (rest : List Char) :
    canonicalInput (String.mk (pre.data ++ (decimalRepr inst ++ '_' :: rest))) =
      checkKindPart rest := by
  have hlen2 : ∀ t : List Char, (jsPre.data ++ t).drop 2 = t := by
    intro t
    rw [show (2:Nat) = jsPre.data.length from rfl, List.drop_left]
  have hlen2g : ∀ t : List Char, (gpPre.data ++ t).drop 2 = t := by
    intro t
    rw [show (2:Nat) = gpPre.data.length from rfl, List.drop_left]
  rcases hpre with rfl | rfl
  · simp only [canonicalInput, data_mk]
    rw [if_pos (listStartsWith_append jsPre.data _), hlen2, checkInstKind_eq]
  · simp only [canonicalInput, data_mk]
    rw [if_neg, if_pos (listStartsWith_append gpPre.data _), hlen2g, checkInstKind_eq]
    intro hcontra
    rw [show gpPre.data = 'g' :: 'p' :: [] from rfl] at hcontra
    simp [listStartsWith, jsPre] at hcontra

theorem checkKindPart_button (k : Nat) :
    checkKindPart (buttonKind.data ++ decimalRepr k) = true := by
  simp only [checkKindPart]
  rw [if_pos (listStartsWith_append buttonKind.data _)]
  rw [show (6:Nat) = buttonKind.data.length from rfl, List.drop_left]
  simp only [checkIdxDir]
  rw [takeDigits_of_digits _ (decimalRepr_digits k)]
  rfl

theorem lsw_button_axis (t : List Char) :
    listStartsWith buttonKind.data (axisKind.data ++ t) = false := rfl

theorem lsw_button_hat (t : List Char) :
    listStartsWith buttonKind.data (hatKind.data ++ t) = false := rfl

theorem lsw_axis_hat (t : List Char) :
    listStartsWith axisKind.data (hatKind.data ++ t) = false := rfl

theorem checkKindPart_axis (k : Nat) (d : Bool) :
    checkKindPart (axisKind.data ++
      (decimalRepr k ++ '_' :: (if d then positiveDir else negativeDir).data)) = true := by
  simp only [checkKindPart, lsw_button_axis, listStartsWith_append, Bool.false_eq_true,
    if_false, if_true]
  rw [show (4:Nat) = axisKind.data.length from rfl, List.drop_left]
  simp only [checkIdxDir]
  rw [takeDigits_append_nondigit _ '_' _ (decimalRepr_digits k) (by decide)]
  cases d
  · show checkTailDir ('_' :: negativeDir.data) = true
    decide
  · show checkTailDir ('_' :: positiveDir.data) = true
    decide

theorem checkKindPart_hat (dir : String) (hdir : dir ∈ hatDirections) :
    checkKindPart (hatKind.data ++ '_' :: dir.data) = true := by
  simp only [checkKindPart, lsw_button_hat, lsw_axis_hat, listStartsWith_append,
    Bool.false_eq_true, if_false, if_true]
  rw [show (4:Nat) = hatKind.data.length from rfl, List.drop_left]
  fin_cases hdir <;> decide

/-- C1 counterexample: a button event whose `Code` debug representation has
no parsable index is not dropped by `wait_for_input` /
`wait_for_multiple_inputs`: it surfaces to the caller with the input string
`js1_button_unknown`, which does not conform to the canonical grammar (only
`wait_for_inputs_with_events` drops such events, via `continue`). -/
theorem C1_counterexample :
    classify_button jsPre 1 exBadCode = "js1_button_unknown" ∧
    canonicalInput (classify_button jsPre 1 exBadCode) = false ∧
    classify_button_events jsPre 1 exBadCode = none := by
  refine ⟨by decide, by decide, by decide⟩

/-- C1 (amended): every input string built from a parsable event conforms to
the canonical grammar — buttons with a parsed index, D-pad hats, axis
triggers, and legacy-backend buttons alike; axis events whose code cannot be
parsed are dropped in all three protocols; but a button event whose code
cannot be parsed is dropped only by `wait_for_inputs_with_events`, while
`wait_for_input` and `wait_for_multiple_inputs` surface it as
`{prefix}{instance}_button_unknown`, a string outside the grammar. -/
theorem C1_input_grammar :
    (∀ pre inst code_str, (pre = jsPre ∨ pre = gpPre) →
      0 < button_index_from_code code_str →
      canonicalInput (classify_button pre inst code_str) = true) ∧
    (∀ pre inst dir, (pre = jsPre ∨ pre = gpPre) → dir ∈ hatDirections →
      canonicalInput (hat_input pre inst dir) = true) ∧
    (∀ pre inst axis_index d, (pre = jsPre ∨ pre = gpPre) →
      canonicalInput (axis_input pre inst axis_index d) = true) ∧
    (∀ inst button_num, canonicalInput (xinput_button_input inst button_num) = true) ∧
    (∀ pre inst code_str, button_index_from_code code_str = 0 →
      classify_button pre inst code_str =
        String.mk (pre.data ++ decimalRepr inst ++ buttonUnknownTail.data) ∧
      classify_button_events pre inst code_str = none) ∧
    (∀ pre inst, (pre = jsPre ∨ pre = gpPre) →
      canonicalInput (String.mk (pre.data ++ decimalRepr inst ++ buttonUnknownTail.data)) =
        false) ∧
    (∀ pre inst code_str fired, extract_code_info code_str = none →
      classify_axis pre inst code_str fired = none) := by
  refine ⟨?_, ?_, ?_, ?_, ?_, ?_, ?_⟩
  · intro pre inst code_str hpre h
    simp only [classify_button, if_pos h]
    rw [List.append_assoc, List.append_assoc]
    have hb := canonicalInput_build pre hpre inst
      (buttonKind.data ++ decimalRepr (button_index_from_code code_str))
    rw [checkKindPart_button] at hb
    exact hb
  · intro pre inst dir hpre hdir
    simp only [hat_input]
    rw [List.append_assoc, List.append_assoc]
    have hb := canonicalInput_build pre hpre inst (hatKind.data ++ '_' :: dir.data)
    rw [checkKindPart_hat dir hdir] at hb
    exact hb
  · intro pre inst axis_index d hpre
    simp only [axis_input]
    rw [List.append_assoc, List.append_assoc, List.append_assoc]
    have hb := canonicalInput_build pre hpre inst
      (axisKind.data ++ (decimalRepr axis_index ++
        '_' :: (if d then positiveDir else negativeDir).data))
    rw [checkKindPart_axis axis_index d] at hb
    exact hb
  · intro inst button_num
    simp only [xinput_button_input]
    rw [List.append_assoc, List.append_assoc]
    have hb := canonicalInput_build gpPre (Or.inr rfl) inst
      (buttonKind.data ++ decimalRepr button_num)
    rw [checkKindPart_button] at hb
    exact hb
  · intro pre inst code_str h
    have hn : ¬ 0 < button_index_from_code code_str := by
      rw [h]
      exact lt_irrefl 0
    exact ⟨by simp only [classify_button, if_neg hn],
      by simp only [classify_button_events, if_neg hn]⟩
  · intro pre inst hpre
    rw [List.append_assoc]
    have hck : checkKindPart (buttonKind.data ++ unknownSuffix.data) = false := by decide
    have hb := canonicalInput_build pre hpre inst (buttonKind.data ++ unknownSuffix.data)
    rw [hck] at hb
    exact hb
  · intro pre inst code_str fired h
    simp only [classify_axis, h]

/-- C1 witness: the grammar theorem applied at concrete inputs — a parsable
button code, a hat direction, a negative axis trigger, a legacy button, and
an unparsable code that the events protocol drops. -/
theorem C1_input_grammar_witness :
    canonicalInput (classify_button jsPre 2 exButtonCode) = true ∧
    canonicalInput (hat_input gpPre 1 upDir) = true ∧
    canonicalInput (axis_input gpPre 1 1 false) = true ∧
    canonicalInput (xinput_button_input 1 14) = true ∧
    classify_button_events jsPre 1 exBadCode = none ∧
    classify_axis jsPre 1 exBadCode (some true) = none := by
  exact ⟨C1_input_grammar.1 jsPre 2 exButtonCode (Or.inl rfl) (by decide),
    C1_input_grammar.2.1 gpPre 1 upDir (Or.inr rfl) (by decide),
    C1_input_grammar.2.2.1 gpPre 1 1 false (Or.inr rfl),
    C1_input_grammar.2.2.2.1 1 14,
    (C1_input_grammar.2.2.2.2.1 jsPre 1 exBadCode (by decide)).2,
    C1_input_grammar.2.2.2.2.2.2 jsPre 1 exBadCode (some true) (by decide)⟩

theorem hexChar_isLowerHex (m : Nat) (h : m < 16) : isLowerHexChar (hexChar m) = true := by
  interval_cases m <;> decide

example : resolve_device_uuid exUuid exDeviceName 0 = "12340000000000000000000000000000" := by
  decide
example : wfmi_device_uuid exUuid = "[18, 52, 0, 0, 0, 0, 0, 0, 0, 0, 0, 0, 0, 0, 0, 0]" := by
  decide
example : resolve_device_uuid zeroUuid exDeviceName 3 = "Generic Gamepad_3" := by decide
example : resolve_xinput_uuid 2 = "xinput_2" := by decide

theorem flatten_byteHexChars_length (raw : List Nat) :
    (List.flatten (raw.map byteHexChars)).length = 2 * raw.length := by
  induction raw with
  | nil => rfl
  | cons b rest ih =>
    simp only [List.map_cons, List.flatten_cons, List.length_append, ih, byteHexChars]
    simp only [List.length_cons, List.length_nil, List.length]
    ring

/-- C5 counterexample: `wait_for_multiple_inputs` attaches
`format!("{:?}", gamepad.uuid())` (directinput.rs line 982) to its events —
the Debug form of the signature bytes — which for the concrete nonzero
signature 0x1234… differs from the resolver contract's lowercase hex
encoding, so not every DetectedInput carries the resolver-contract
identity. -/
theorem C5_counterexample :
    wfmi_device_uuid exUuid = "[18, 52, 0, 0, 0, 0, 0, 0, 0, 0, 0, 0, 0, 0, 0, 0]" ∧
    resolve_device_uuid exUuid exDeviceName 0 = "12340000000000000000000000000000" ∧
    wfmi_device_uuid exUuid ≠ resolve_device_uuid exUuid exDeviceName 0 ∧
    wfmi_device_uuid exUuid ≠ resolve_xinput_uuid 0 := by
  refine ⟨by decide, by decide, by decide, by decide⟩

/-- C5 (amended): the resolver contract holds for `resolve_device_uuid`
itself and for the identities `wait_for_input` and the legacy backend
attach: an all-zero signature falls back to `"{name}_{fallback_id}"`, a
nonzero signature hex-encodes to `2 × 16` lowercase-hex characters with no
separators, and legacy devices get `"xinput_{slot}"`. But the
generic-backend events of `wait_for_multiple_inputs` and
`wait_for_inputs_with_events` instead carry the Debug formatting of the raw
signature bytes, which never coincides with the hex encoding of a nonzero
signature. -/
theorem C5_device_identity :
    (∀ raw name i, wfi_device_uuid raw name i = resolve_device_uuid raw name i) ∧
    (∀ raw name i, raw.all (fun b => b == 0) = true →
      resolve_device_uuid raw name i = String.mk (name.data ++ '_' :: decimalRepr i)) ∧
    (∀ raw name i, raw.all (fun b => b == 0) = false → (∀ b ∈ raw, b < 256) →
      (resolve_device_uuid raw name i).data.length = 2 * raw.length ∧
      (∀ c ∈ (resolve_device_uuid raw name i).data, isLowerHexChar c = true)) ∧
    (∀ slot, resolve_xinput_uuid slot = String.mk (xinputPre.data ++ decimalRepr slot)) ∧
    (∀ raw name i, raw ≠ [] → raw.all (fun b => b == 0) = false → (∀ b ∈ raw, b < 256) →
      wfmi_device_uuid raw ≠ resolve_device_uuid raw name i) := by
  refine ⟨fun raw name i => rfl, ?_, ?_, fun slot => rfl, ?_⟩
  · intro raw name i h
    simp only [resolve_device_uuid, if_pos h]
  · intro raw name i h hb
    have hneg : ¬ (raw.all (fun b => b == 0) = true) := by
      rw [h]
      exact Bool.false_ne_true
    simp only [resolve_device_uuid, if_neg hneg, data_mk]
    refine ⟨flatten_byteHexChars_length raw, ?_⟩
    intro c hc
    obtain ⟨l, hl, hcl⟩ := List.mem_flatten.mp hc
    obtain ⟨b, hbraw, hbl⟩ := List.mem_map.mp hl
    subst hbl
    have hb256 := hb b hbraw
    simp only [byteHexChars, List.mem_cons, List.mem_singleton, List.not_mem_nil,
      or_false] at hcl
    rcases hcl with rfl | rfl
    · exact hexChar_isLowerHex (b / 16) (by omega)
    · exact hexChar_isLowerHex (b % 16) (by omega)
  · intro raw name i hne h hb heq
    cases raw with
    | nil => exact hne rfl
    | cons b rest =>
      have hneg : ¬ ((b :: rest).all (fun x => x == 0) = true) := by
        rw [h]
        exact Bool.false_ne_true
      have hdata := congrArg String.data heq
      simp only [wfmi_device_uuid, debugFormatBytes, resolve_device_uuid, if_neg hneg,
        data_mk, List.map_cons, List.flatten_cons, byteHexChars,
        List.cons_append, List.nil_append] at hdata
      have hhead : '[' = hexChar (b / 16) := by
        injection hdata with h1 h2
      have hlt : b / 16 < 16 := by
        have := hb b (List.mem_cons_self b rest)
        omega
      set m := b / 16 with hm
      interval_cases m <;> exact absurd hhead (by decide)

/-- C5 witness: the amended identity theorem at concrete inputs — the
all-zero fallback, the nonzero hex length, the legacy slot format, and the
Debug-format divergence at the 0x1234… signature. -/
theorem C5_device_identity_witness :
    resolve_device_uuid zeroUuid exDeviceName 3 =
      String.mk (exDeviceName.data ++ '_' :: decimalRepr 3) ∧
    (resolve_device_uuid exUuid exDeviceName 0).data.length = 2 * exUuid.length ∧
    wfmi_device_uuid exUuid ≠ resolve_device_uuid exUuid exDeviceName 0 := by
  refine ⟨C5_device_identity.2.1 zeroUuid exDeviceName 3 (by decide),
    (C5_device_identity.2.2.1 exUuid exDeviceName 0 (by decide) ?_).1,
    C5_device_identity.2.2.2.2 exUuid exDeviceName 0 (by decide) (by decide) ?_⟩
  · intro b hbm
    fin_cases hbm <;> norm_num
  · intro b hbm
    fin_cases hbm <;> norm_num

theorem insertInput_map_string (acc : List DetectedInputM) (e : DetectedInputM) :
    (insertInput acc e).map DetectedInputM.input_string =
      (if e.input_string ∈ acc.map DetectedInputM.input_string
        then acc.map DetectedInputM.input_string
        else acc.map DetectedInputM.input_string ++ [e.input_string]) := by
  simp only [insertInput]
  by_cases h : acc.any (fun j => j.input_string == e.input_string)
  · rw [if_pos h, if_pos]
    obtain ⟨j, hj, hjs⟩ := List.any_eq_true.mp h
    rw [beq_iff_eq] at hjs
    exact List.mem_map.mpr ⟨j, hj, hjs⟩
  · rw [if_neg h, if_neg]
    · simp
    · intro hmem
      obtain ⟨j, hj, hjs⟩ := List.mem_map.mp hmem
      exact h (List.any_eq_true.mpr ⟨j, hj, beq_iff_eq.mpr hjs⟩)

theorem collect_foldl_map (events : List DetectedInputM) : ∀ acc : List DetectedInputM,
    (events.foldl insertInput acc).map DetectedInputM.input_string =
      (events.map DetectedInputM.input_string).foldl
        (fun a s => if s ∈ a then a else a ++ [s])
        (acc.map DetectedInputM.input_string) := by
  induction events with
  | nil => intro acc; rfl
  | cons e es ih =>
    intro acc
    simp only [List.foldl_cons, List.map_cons]
    rw [ih, insertInput_map_string]

theorem collect_map_strings (events : List DetectedInputM) :
    (collectInputs events).map DetectedInputM.input_string =
      firstSeenStrings (events.map DetectedInputM.input_string) :=
  collect_foldl_map events []

theorem insertInput_nodup (acc : List DetectedInputM) (e : DetectedInputM)
    (h : (acc.map DetectedInputM.input_string).Nodup) :
    ((insertInput acc e).map DetectedInputM.input_string).Nodup := by
  rw [insertInput_map_string]
  by_cases hm : e.input_string ∈ acc.map DetectedInputM.input_string
  · rw [if_pos hm]; exact h
  · rw [if_neg hm]
    rw [List.nodup_append]
    exact ⟨h, List.nodup_singleton _, by simpa [List.disjoint_singleton] using hm⟩

theorem collect_foldl_nodup (events : List DetectedInputM) : ∀ acc : List DetectedInputM,
    (acc.map DetectedInputM.input_string).Nodup →
    ((events.foldl insertInput acc).map DetectedInputM.input_string).Nodup := by
  induction events with
  | nil => intro acc h; exact h
  | cons e es ih =>
    intro acc h
    exact ih (insertInput acc e) (insertInput_nodup acc e h)

theorem collect_foldl_sublist (events : List DetectedInputM) : ∀ acc : List DetectedInputM,
    ∃ l, events.foldl insertInput acc = acc ++ l ∧ List.Sublist l events := by
  induction events with
  | nil => intro acc; exact ⟨[], by simp, List.Sublist.refl []⟩
  | cons e es ih =>
    intro acc
    simp only [List.foldl_cons, insertInput]
    by_cases h : acc.any (fun j => j.input_string == e.input_string)
    · rw [if_pos h]
      obtain ⟨l, hl, hs⟩ := ih acc
      exact ⟨l, hl, List.Sublist.cons e hs⟩
    · rw [if_neg h]
      obtain ⟨l, hl, hs⟩ := ih (acc ++ [e])
      exact ⟨e :: l, by rw [hl, List.append_assoc]; rfl, List.Sublist.cons₂ e hs⟩

theorem firstSeen_foldl_mem (ss : List String) : ∀ acc : List String, ∀ s : String,
    (s ∈ ss.foldl (fun a t => if t ∈ a then a else a ++ [t]) acc ↔ s ∈ acc ∨ s ∈ ss) := by
  induction ss with
  | nil => intro acc s; simp
  | cons t ts ih =>
    intro acc s
    simp only [List.foldl_cons]
    by_cases h : t ∈ acc
    · rw [if_pos h, ih]
      constructor
      · rintro (hs | hs)
        · exact Or.inl hs
        · exact Or.inr (List.mem_cons_of_mem t hs)
      · rintro (hs | hs)
        · exact Or.inl hs
        · rcases List.mem_cons.mp hs with rfl | hs
          · exact Or.inl h
          · exact Or.inr hs
    · rw [if_neg h, ih]
      constructor
      · rintro (hs | hs)
        · rcases List.mem_append.mp hs with hs | hs
          · exact Or.inl hs
          · rcases List.mem_singleton.mp hs with rfl
            exact Or.inr (List.mem_cons_self _ _)
        · exact Or.inr (List.mem_cons_of_mem t hs)
      · rintro (hs | hs)
        · exact Or.inl (List.mem_append.mpr (Or.inl hs))
        · rcases List.mem_cons.mp hs with rfl | hs
          · exact Or.inl (List.mem_append.mpr (Or.inr (List.mem_singleton.mpr rfl)))
          · exact Or.inr hs

/-- C7: the accumulated result list of `wait_for_multiple_inputs` holds
pairwise-distinct canonical input strings — an accepted event is appended
only when no element with the same `input_string` is present — it is a
sublist of the accepted-event sequence (so order is first-seen order), its
string sequence equals the first-seen deduplication of the event strings,
and it covers exactly the strings that occurred. -/
theorem C7_unique_collection :
    (∀ events : List DetectedInputM,
      ((collectInputs events).map DetectedInputM.input_string).Nodup) ∧
    (∀ events : List DetectedInputM, List.Sublist (collectInputs events) events) ∧
    (∀ events : List DetectedInputM,
      (collectInputs events).map DetectedInputM.input_string =
        firstSeenStrings (events.map DetectedInputM.input_string)) ∧
    (∀ (events : List DetectedInputM) (s : String),
      s ∈ (collectInputs events).map DetectedInputM.input_string ↔
        s ∈ events.map DetectedInputM.input_string) := by
  refine ⟨?_, ?_, collect_map_strings, ?_⟩
  · intro events
    exact collect_foldl_nodup events [] (by simp)
  · intro events
    obtain ⟨l, hl, hs⟩ := collect_foldl_sublist events []
    rw [collectInputs, hl, List.nil_append]
    exact hs
  · intro events s
    rw [collect_map_strings, firstSeenStrings, firstSeen_foldl_mem]
    simp

theorem firstDetection_of_all_none (ticks : List (Option DetectedInputM))
    (h : ∀ t ∈ ticks, t = none) : firstDetection ticks = none := by
  induction ticks with
  | nil => rfl
  | cons t rest ih =>
    have ht := h t (List.mem_cons_self _ _)
    subst ht
    simp only [firstDetection]
    exact ih (fun x hx => h x (List.mem_cons_of_mem _ hx))

/-- C8: a session in which no tick produces a qualifying input returns
`Ok(None)` from `wait_for_input` and `Ok` of the empty list from
`wait_for_multiple_inputs`; an `Err` outcome of either protocol can only
originate in a backend initialization failure before the capture loop. -/
theorem C8_timeout_not_error :
    (∀ ticks : List (Option DetectedInputM), (∀ t ∈ ticks, t = none) →
      wait_for_input_model (.ok ()) (.ok ()) ticks = .ok none) ∧
    (∀ tickEvents : List (List DetectedInputM), (∀ t ∈ tickEvents, t = []) →
      wait_for_multiple_inputs_model (.ok ()) tickEvents = .ok []) ∧
    (∀ (g x : Except String Unit) ticks e,
      wait_for_input_model g x ticks = .error e →
      (∃ msg, g = .error msg) ∨ (∃ msg, x = .error msg)) ∧
    (∀ (g : Except String Unit) tickEvents e,
      wait_for_multiple_inputs_model g tickEvents = .error e → g = .error e) := by
  refine ⟨?_, ?_, ?_, ?_⟩
  · intro ticks h
    simp only [wait_for_input_model, firstDetection_of_all_none ticks h]
  · intro tickEvents h
    have hflat : tickEvents.flatten = [] := by
      rw [List.flatten_eq_nil_iff]
      exact h
    simp only [wait_for_multiple_inputs_model, hflat]
    rfl
  · intro g x ticks e h
    cases g with
    | error msg => exact Or.inl ⟨msg, rfl⟩
    | ok u =>
      cases x with
      | error msg => exact Or.inr ⟨msg, rfl⟩
      | ok u2 =>
        simp [wait_for_input_model] at h
  · intro g tickEvents e h
    cases g with
    | error msg =>
      simp only [wait_for_multiple_inputs_model] at h
      injection h with h1
      rw [h1]
    | ok u =>
      simp [wait_for_multiple_inputs_model] at h

/-- C8 witness: the timeout theorem at two empty ticks of each protocol, and
the error-origin clauses at a concrete failing initialization. -/
theorem C8_timeout_not_error_witness :
    wait_for_input_model (.ok ()) (.ok ()) [none, none] = .ok none ∧
    wait_for_multiple_inputs_model (.ok ()) [[], []] = .ok [] ∧
    ((∃ msg, (Except.error exInitError : Except String Unit) = .error msg) ∨
      (∃ msg, (Except.ok () : Except String Unit) = .error msg)) ∧
    (Except.error exInitError : Except String Unit) = .error exInitError := by
  refine ⟨C8_timeout_not_error.1 [none, none] ?_,
    C8_timeout_not_error.2.1 [[], []] ?_,
    C8_timeout_not_error.2.2.1 (.error exInitError) (.ok ()) [] exInitError rfl,
    C8_timeout_not_error.2.2.2 (.error exInitError) [] exInitError rfl⟩
  · intro t ht
    rcases List.mem_cons.mp ht with rfl | ht
    · rfl
    · rcases List.mem_cons.mp ht with rfl | ht
      · rfl
      · cases ht
  · intro t ht
    rcases List.mem_cons.mp ht with rfl | ht
    · rfl
    · rcases List.mem_cons.mp ht with rfl | ht
      · rfl
      · cases ht

/-- C9 counterexample: a `wait_for_multiple_inputs` tick with one pending
generic event contains no legacy-backend poll at all — slot 0 (or any slot)
is absent from its trace — while the same tick of `wait_for_input` does poll
slot 0; so "all three capture protocols poll the legacy backend's 4 slots
each tick" fails for `wait_for_multiple_inputs`. -/
theorem C9_counterexample :
    wfmi_tick_trace [7] = [PollStep.generic 7] ∧
    (∀ s, PollStep.legacy s ∉ wfmi_tick_trace [7]) ∧
    wfmi_tick_trace [7] ≠ wfi_tick_trace [7] ∧
    PollStep.legacy 0 ∈ wfi_tick_trace [7] := by
  refine ⟨rfl, ?_, by decide, by decide⟩
  intro s hs
  rcases List.mem_singleton.mp hs with h
  cases h

/-- C9 (amended): in every loop tick of `wait_for_input` and
`wait_for_inputs_with_events`, all pending generic-backend events are
processed in arrival order first and then the legacy backend's 4 slots are
polled in ascending slot order — formally, the tick trace is the generic
events in order followed by slots 0,1,2,3, and any legacy step sits
strictly after every generic step; `wait_for_multiple_inputs` instead
drains only the generic queue and performs no legacy poll. -/
theorem C9_tick_ordering :
    (∀ ge : List Nat, wfi_tick_trace ge = ge.map PollStep.generic ++
      [PollStep.legacy 0, PollStep.legacy 1, PollStep.legacy 2, PollStep.legacy 3]) ∧
    (∀ ge : List Nat, wfie_tick_trace ge = wfi_tick_trace ge) ∧
    (∀ (ge : List Nat) (i j s k : Nat),
      (wfi_tick_trace ge)[i]? = some (PollStep.legacy s) →
      (wfi_tick_trace ge)[j]? = some (PollStep.generic k) → j < i) ∧
    (∀ (ge : List Nat), ∀ st ∈ wfmi_tick_trace ge, ∃ k, st = PollStep.generic k) := by
  refine ⟨fun ge => rfl, fun ge => rfl, ?_, ?_⟩
  · intro ge i j s k hi hj
    have hjlt : j < (ge.map PollStep.generic).length := by
      by_contra hge
      rw [wfi_tick_trace, List.getElem?_append_right (le_of_not_lt hge)] at hj
      rcases hm : j - (ge.map PollStep.generic).length with _ | _ | _ | _ | m <;>
        rw [hm] at hj <;> simp at hj
    have hige : (ge.map PollStep.generic).length ≤ i := by
      by_contra hlt
      rw [wfi_tick_trace, List.getElem?_append_left (lt_of_not_le hlt),
        List.getElem?_map] at hi
      cases hge : ge[i]? with
      | none => rw [hge] at hi; simp at hi
      | some a => rw [hge] at hi; simp at hi
    exact lt_of_lt_of_le hjlt hige
  · intro ge st hst
    obtain ⟨k, _, hk⟩ := List.mem_map.mp hst
    exact ⟨k, hk.symm⟩

/-- C9 witness: the ordering clause at the concrete one-event tick — the
legacy-slot step at position 1 comes after the generic step at position
0 — and the legacy-free shape of the `wait_for_multiple_inputs` tick. -/
theorem C9_tick_ordering_witness :
    (0 : Nat) < 1 ∧ (∃ k, PollStep.generic 7 = PollStep.generic k) := by
  refine ⟨C9_tick_ordering.2.2.1 [7] 1 0 0 7 (by decide) (by decide), ?_⟩
  exact C9_tick_ordering.2.2.2 [7] (PollStep.generic 7) (by decide)

theorem xinput_button_num_eq_priority_first (pressed : Nat) :
    xinput_button_num pressed = priority_first XINPUT_BUTTON_MASKS pressed := rfl

theorem xinput_self_diff (cur : Nat) (h : cur < 65536) : cur &&& (65535 ^^^ cur) = 0 := by
  apply Nat.eq_of_testBit_eq
  intro i
  simp only [Nat.testBit_and, Nat.testBit_xor, Nat.zero_testBit]
  by_cases hi : i < 16
  · have h65535 : Nat.testBit 65535 i = true := by
      rw [show (65535 : Nat) = 2^16 - 1 by norm_num, Nat.testBit_two_pow_sub_one]
      simpa using hi
    rw [h65535]
    cases hb : cur.testBit i <;> simp
  · have hcb : cur.testBit i = false := by
      apply Nat.testBit_lt_two_pow
      calc cur < 65536 := h
      _ = 2^16 := by norm_num
      _ ≤ 2^i := Nat.pow_le_pow_right (by norm_num) (le_of_not_lt hi)
    have h65535 : Nat.testBit 65535 i = false := by
      rw [show (65535 : Nat) = 2^16 - 1 by norm_num, Nat.testBit_two_pow_sub_one]
      simpa using hi
    rw [hcb, h65535]
    simp

theorem xinput_run_const (cur : Nat) (h : cur < 65536) :
    ∀ k, xinput_run cur (List.replicate k cur) = [] := by
  intro k
  induction k with
  | zero => rfl
  | succ k ih =>
    simp only [List.replicate_succ, xinput_run, xinput_poll_slot, xinput_self_diff cur h]
    simp only [ne_eq, not_true_eq_false, reduceIte]
    exact ih

theorem priority_first_pos (masks : List (Nat × Nat)) (pressed : Nat)
    (hall : ∀ p ∈ masks, 0 < p.2) (hex : ∃ p ∈ masks, pressed &&& p.1 ≠ 0) :
    0 < priority_first masks pressed := by
  induction masks with
  | nil =>
    obtain ⟨p, hp, -⟩ := hex
    cases hp
  | cons q rest ih =>
    obtain ⟨m, nn⟩ := q
    simp only [priority_first]
    by_cases hq : pressed &&& m ≠ 0
    · rw [if_pos hq]
      exact hall (m, nn) (List.mem_cons_self _ _)
    · rw [if_neg hq]
      obtain ⟨p, hp, hpp⟩ := hex
      rcases List.mem_cons.mp hp with rfl | hp
      · exact absurd hpp hq
      · exact ih (fun r hr => hall r (List.mem_cons_of_mem _ hr)) ⟨p, hp, hpp⟩

/-- C10: when two (or more) buttons are newly pressed on one legacy slot in
a single tick, the tick emits exactly one button event — the first entry in
the fixed priority order A, B, X, Y, LB, RB, Back, Start, LS, RS, DPad-Up,
DPad-Down, DPad-Left, DPad-Right whose bit is newly set — and, because the
snapshot is overwritten with the full current mask at the end of the tick,
no further event is emitted in any number of later ticks while the buttons
stay held. -/
theorem C10_xinput_priority (prev cur n : Nat) (_hprev : prev < 65536) (hcur : cur < 65536)
    (m1 m2 : Nat × Nat) (hm1 : m1 ∈ XINPUT_BUTTON_MASKS) (_hm2 : m2 ∈ XINPUT_BUTTON_MASKS)
    (_hne : m1 ≠ m2)
    (h1 : (cur &&& (65535 ^^^ prev)) &&& m1.1 ≠ 0)
    (_h2 : (cur &&& (65535 ^^^ prev)) &&& m2.1 ≠ 0) :
    xinput_run prev (List.replicate (n+1) cur) =
      [priority_first XINPUT_BUTTON_MASKS (cur &&& (65535 ^^^ prev))] := by
  have hmasks : ∀ p ∈ XINPUT_BUTTON_MASKS, 0 < p.2 := by decide
  have hpos : 0 < xinput_button_num (cur &&& (65535 ^^^ prev)) := by
    rw [xinput_button_num_eq_priority_first]
    exact priority_first_pos _ _ hmasks ⟨m1, hm1, h1⟩
  have hnz : cur &&& (65535 ^^^ prev) ≠ 0 := by
    intro h0
    rw [h0] at h1
    exact h1 (Nat.zero_and m1.1)
  simp only [List.replicate_succ, xinput_run, xinput_poll_slot]
  rw [if_pos hnz, if_pos hpos]
  simp only [xinput_run_const cur hcur n, xinput_button_num_eq_priority_first]

/-- C10 witness: the priority theorem at slot snapshot 0 and current mask
0x3000 (A and B newly pressed together, held for three ticks): exactly one
event, button 1 (A), and nothing afterwards. -/
theorem C10_xinput_priority_witness :
    xinput_run 0 (List.replicate 3 12288) =
      [priority_first XINPUT_BUTTON_MASKS (12288 &&& (65535 ^^^ 0))] := by
  exact C10_xinput_priority 0 12288 2 (by norm_num) (by norm_num)
    (4096, 1) (8192, 2) (by decide) (by decide) (by decide) (by decide) (by decide)

/-- Sanity evaluation: the concrete witness run emits button 1 (the A
button), the earliest of the two newly-pressed buttons. -/
theorem xinput_run_concrete_eval : xinput_run 0 (List.replicate 3 12288) = [1] := by decide
